import Mathlib

/-!
Shallow embedding of the Xel'thor translator repository
(translator.py, vocabulary.py, auth_manager.py, dictionary_manager.py).

Python strings are modelled as Lean `String`; Python `dict`s as association
lists with insert-or-replace semantics; `datetime` instants as `Nat`
(hours); file persistence as explicit state passing.  All string helpers
(`lower`, `strip`, `split`, `startswith`, `endswith`) are modelled for the
ASCII inputs the program works with.
-/

namespace Xelthor

/-- Model of the whitespace set used by Python `str.split()` / `str.strip()`
(ASCII whitespace, stated on code points). -/
def pySpace (c : Char) : Bool :=
  c.toNat == 32 || c.toNat == 9 || c.toNat == 10 || c.toNat == 13 ||
    c.toNat == 11 || c.toNat == 12

/-- Model of Python `str.lower()` for ASCII characters (code points 65-90
map to 97-122, everything else is unchanged). -/
def lowerChar (c : Char) : Char :=
  if 65 ≤ c.toNat ∧ c.toNat ≤ 90 then Char.ofNat (c.toNat + 32) else c

/-- Lowercasing a whole string (`str.lower()`). -/
def lowerStr (s : String) : String := ⟨s.data.map lowerChar⟩

/-- Model of Python `str.strip(chars)`: remove every leading and trailing
character that belongs to the set `cs`. -/
def stripBoth (cs : List Char) (s : String) : String :=
  ⟨((s.data.dropWhile (fun c => cs.contains c)).reverse.dropWhile
      (fun c => cs.contains c)).reverse⟩

/-- Model of Python `str.strip()` (no argument): strip ASCII whitespace. -/
def stripWS (s : String) : String :=
  ⟨((s.data.dropWhile pySpace).reverse.dropWhile pySpace).reverse⟩

/-- Helper for `pySplit`: walk the characters, accumulating the current
token in reverse; whitespace runs separate tokens and empty tokens are
dropped, as in Python `str.split()` with no argument. -/
def splitWSGo : List Char → List Char → List (List Char)
  | [], cur => if cur.isEmpty then [] else [cur.reverse]
  | c :: cs, cur =>
    if pySpace c then
      (if cur.isEmpty then splitWSGo cs [] else cur.reverse :: splitWSGo cs [])
    else splitWSGo cs (c :: cur)

/-- Model of Python `str.split()` (split on whitespace runs, no empties). -/
def pySplit (s : String) : List String :=
  (splitWSGo s.data []).map (fun cs => (⟨cs⟩ : String))

/-- Model of Python `s.startswith(p)`. -/
def startsWithS (s p : String) : Bool := List.isPrefixOf p.data s.data

/-- Model of Python `s.endswith(p)` (checked on reversed character lists). -/
def endsWithS (s p : String) : Bool := List.isPrefixOf p.data.reverse s.data.reverse

/-- Model of Python `s[:-len(p)]` when `p` is a suffix of `s`. -/
def dropSuffixS (s p : String) : String :=
  ⟨s.data.take (s.data.length - p.data.length)⟩

/-- Model of Python `" ".join(words)`. -/
def joinSpace : List String → String
  | [] => ""
  | [s] => s
  | s :: rest => s ++ " " ++ joinSpace rest

/-- Association-list model of Python `dict` assignment `m[k] = v`:
replace in place if the key exists, otherwise append. -/
def dinsert {α : Type} (m : List (String × α)) (k : String) (v : α) : List (String × α) :=
  if m.any (fun p => p.1 == k) then
    m.map (fun p => if p.1 == k then (k, v) else p)
  else m ++ [(k, v)]

/-- The hard-coded vocabulary of `VocabularyManager.__init__`
(vocabulary.py), in source order. -/
def vocab : List (String × String) :=
  [("travel", "zz\x27rix"),
   ("communicate", "ph\x27sor"),
   ("see", "xa\x27lor"),
   ("think", "mii\x27sor"),
   ("share", "ph\x27sor"),
   ("create", "vor\x27tix"),
   ("learn", "mii\x27zar"),
   ("speak", "ph\x27lor"),
   ("traveler", "xel\x27thor"),
   ("star", "xel\x27ka"),
   ("ship", "xel\x27vor"),
   ("world", "xel\x27thal"),
   ("body", "xel\x27phi"),
   ("light", "vor\x27kaan"),
   ("energy", "vor\x27thi"),
   ("power", "vor\x27zix"),
   ("space", "vor\x27thal"),
   ("time", "vor\x27phi"),
   ("wisdom", "mii\x27path"),
   ("knowledge", "mii\x27path"),
   ("truth", "mii\x27kan"),
   ("thought", "mii\x27lor"),
   ("unity", "mii\x27zol"),
   ("through", "vor"),
   ("between", "zz"),
   ("with", "phi"),
   ("in", "ka"),
   ("to", "th"),
   ("from", "rx")]

/-- Lookup in the English → Xel'thor dictionary (`self.eng_to_xel`). -/
def engToXel (w : String) : Option String :=
  (vocab.find? (fun p => p.1 == w)).map Prod.snd

/-- The reverse dictionary `{v: k for k, v in vocabulary.items()}` of
`VocabularyManager.get_xel_to_eng`: built by inserting pairs in source
order, so a later English word overwrites an earlier one sharing the same
Xel'thor form ("last writer wins"). -/
def xelToEngList : List (String × String) :=
  vocab.foldl (fun m p => dinsert m p.2 p.1) []

/-- Lookup in the Xel'thor → English dictionary (`self.xel_to_eng`). -/
def xelToEng (x : String) : Option String :=
  (xelToEngList.find? (fun p => p.1 == x)).map Prod.snd

/-- The verb test's fixed five strings in `apply_grammar_rules` and
`translate_to_xelthor` (translator.py). -/
def verbPrefixes : List String :=
  ["zz\x27", "ph\x27", "xa\x27", "vor\x27", "mii\x27"]

/-- `any(word.startswith(p) for p in ["zz'", "ph'", "xa'", "vor'", "mii'"])`. -/
def isVerbForm (w : String) : Bool :=
  verbPrefixes.any (fun p => startsWithS w p)

/-- The tonal-indicator table `self.tones` of `XelthorTranslator.__init__`,
in source order. -/
def tones : List (String × String) :=
  [("present", ""), ("past", "-pa"), ("future", "-zi"), ("eternal", "-th")]

/-- The suffix contributed by a tense name: the table entry when the tense
is recognized, and the empty string otherwise (spec-side helper used to
state the affixation property of `apply_tense`). -/
def toneSuffix (tense : String) : String :=
  match tones.find? (fun p => p.1 == tense) with
  | some p => p.2
  | none => ""

/-- The verb scan of `apply_grammar_rules`: first index whose token passes
the verb test.  With `toXel = true` the token is looked up in the
English → Xel'thor map and its translation is prefix-tested; with
`toXel = false` the token itself must be a key of the reverse map and is
prefix-tested directly. -/
def findVerbIdx (words : List String) (toXel : Bool) : Option Nat :=
  words.findIdx? (fun w =>
    if toXel then
      match engToXel w with
      | some x => isVerbForm x
      | none => false
    else (xelToEng w).isSome && isVerbForm w)

/-- `XelthorTranslator.apply_grammar_rules` (translator.py lines 28-62). -/
def applyGrammarRules (words : List String) (toXel : Bool) : List String :=
  if words.length < 3 then words
  else
    match findVerbIdx words toXel with
    | none => words
    | some v =>
      if toXel then
        (words.drop v).take 1 ++ words.drop (v + 1) ++ words.take v
      else
        words.drop (v + 1) ++ (words.drop v).take 1 ++ words.take v

/-- `XelthorTranslator.apply_tense` (translator.py lines 64-68). -/
def applyTense (w tense : String) : String :=
  match tones.find? (fun p => p.1 == tense) with
  | some p => w ++ p.2
  | none => w

/-- The first-pass per-token translation of `translate_to_xelthor`:
strip `. , ! ?`, look up, and on a miss wrap in square brackets. -/
def firstPass (word : String) : String :=
  let clean := stripBoth ['.', ',', '!', '?'] word
  match engToXel clean with
  | some x => x
  | none => "[" ++ clean ++ "]"

/-- `XelthorTranslator.translate_to_xelthor` (translator.py lines 70-108).
The `try` body cannot raise for the operations modelled here, so the
`except` arm is dead and not modelled. -/
def translateToXelthor (text tense : String) : String :=
  if text = "" then ""
  else
    let words := pySplit (stripWS (lowerStr text))
    let xelthorWords := words.map firstPass
    let reordered := applyGrammarRules xelthorWords true
    let finalWords := reordered.map (fun w => if isVerbForm w then applyTense w tense else w)
    joinSpace finalWords

/-- The tense-marker stripping loop of `translate_to_english`: the first
table entry with a non-empty marker that is a suffix of the token wins. -/
def stripTense (w : String) : String × String :=
  match tones.find? (fun p => decide (p.2 ≠ "") && endsWithS w p.2) with
  | some p => (dropSuffixS w p.2, p.1)
  | none => (w, "present")

/-- One iteration of the token loop of `translate_to_english`, acting on
the accumulated result list `acc` (the mutable `english_words`). -/
def engStep (acc : List String) (word : String) : List String :=
  let bt := stripTense word
  match xelToEng bt.1 with
  | some tr =>
    if bt.2 == "present" then acc ++ [tr]
    else if !acc.isEmpty && acc.head? != some "will" && bt.2 == "future" then
      "will" :: acc ++ [tr]
    else if !acc.isEmpty && !(["had", "was"].any (fun w => acc.contains w)) && bt.2 == "past" then
      acc ++ [(if endsWithS tr "ing" then "was " else "did ") ++ tr]
    else acc ++ [tr]
  | none =>
    let tr :=
      if startsWithS bt.1 "[" && endsWithS bt.1 "]" then stripBoth ['[', ']'] bt.1
      else bt.1
    acc ++ [tr]

/-- `XelthorTranslator.translate_to_english` (translator.py lines 110-160). -/
def translateToEnglish (text : String) : String :=
  if text = "" then ""
  else
    let words := pySplit (stripWS text)
    let englishWords := words.foldl engStep []
    joinSpace (applyGrammarRules englishWords false)

/-! ### SHA-256 (FIPS 180-4), the meaning of `hashlib.sha256(...).hexdigest()`
used by `auth_manager.py`.  Words are `Nat`s reduced modulo `2 ^ 32`. -/

namespace SHA256

/-- `2 ^ 32`, the word modulus. -/
def M32 : Nat := 4294967296

/-- Right rotation of a 32-bit word. -/
def rotr (n x : Nat) : Nat := ((x >>> n) ||| (x <<< (32 - n))) % M32

/-- Big Sigma-0 of FIPS 180-4 section 4.1.2. -/
def upperSig0 (x : Nat) : Nat := (rotr 2 x) ^^^ (rotr 13 x) ^^^ (rotr 22 x)

/-- Big Sigma-1. -/
def upperSig1 (x : Nat) : Nat := (rotr 6 x) ^^^ (rotr 11 x) ^^^ (rotr 25 x)

/-- Small sigma-0. -/
def lowerSig0 (x : Nat) : Nat := (rotr 7 x) ^^^ (rotr 18 x) ^^^ (x >>> 3)

/-- Small sigma-1. -/
def lowerSig1 (x : Nat) : Nat := (rotr 17 x) ^^^ (rotr 19 x) ^^^ (x >>> 10)

/-- Choice function; `¬x` is `x XOR 0xffffffff` on 32-bit words. -/
def ch (x y z : Nat) : Nat := (x &&& y) ^^^ ((x ^^^ (M32 - 1)) &&& z)

/-- Majority function. -/
def maj (x y z : Nat) : Nat := (x &&& y) ^^^ (x &&& z) ^^^ (y &&& z)

/-- The 64 round constants of FIPS 180-4 section 4.2.2 (the standard
hexadecimal table, written here in decimal). -/
def K : List Nat :=
  [1116352408, 1899447441, 3049323471, 3921009573, 961987163,
   1508970993, 2453635748, 2870763221, 3624381080, 310598401,
   607225278, 1426881987, 1925078388, 2162078206, 2614888103,
   3248222580, 3835390401, 4022224774, 264347078, 604807628,
   770255983, 1249150122, 1555081692, 1996064986, 2554220882,
   2821834349, 2952996808, 3210313671, 3336571891, 3584528711,
   113926993, 338241895, 666307205, 773529912, 1294757372,
   1396182291, 1695183700, 1986661051, 2177026350, 2456956037,
   2730485921, 2820302411, 3259730800, 3345764771, 3516065817,
   3600352804, 4094571909, 275423344, 430227734, 506948616,
   659060556, 883997877, 958139571, 1322822218, 1537002063,
   1747873779, 1955562222, 2024104815, 2227730452, 2361852424,
   2428436474, 2756734187, 3204031479, 3329325298]

/-- The initial hash value of FIPS 180-4 section 5.3.3 (in decimal). -/
def H0 : List Nat :=
  [1779033703, 3144134277, 1013904242, 2773480762, 1359893119,
   2600822924, 528734635, 1541459225]

/-- Big-endian byte decomposition of `v` into `n` bytes. -/
def toBytesBE : Nat → Nat → List Nat
  | 0, _ => []
  | n + 1, v => toBytesBE n (v / 256) ++ [v % 256]

/-- Padding of section 5.1.1: append `0x80`, then zeros up to 56 mod 64,
then the bit length as 8 big-endian bytes. -/
def padBytes (msg : List Nat) : List Nat :=
  let l := msg.length
  let k := (64 - ((l + 9) % 64)) % 64
  msg ++ [128] ++ List.replicate k 0 ++ toBytesBE 8 (8 * l)

/-- Group bytes into big-endian 32-bit words. -/
def toWordsBE : List Nat → List Nat
  | b0 :: b1 :: b2 :: b3 :: rest =>
    (((b0 * 256 + b1) * 256 + b2) * 256 + b3) :: toWordsBE rest
  | _ => []

/-- Helper for `blocks`: structural recursion on a fuel bounded by the
byte count, so that evaluation reduces inside the kernel. -/
def blocksGo : Nat → List Nat → List (List Nat)
  | 0, _ => []
  | _, [] => []
  | fuel + 1, b :: rest => (b :: rest).take 64 :: blocksGo fuel ((b :: rest).drop 64)

/-- Split the padded byte stream into 64-byte blocks. -/
def blocks (l : List Nat) : List (List Nat) := blocksGo l.length l

/-- Message-schedule extension, carried out on the reversed word list so
that `w[t-2]`, `w[t-7]`, `w[t-15]`, `w[t-16]` are positions 1, 6, 14, 15. -/
def extendRev : List Nat → Nat → List Nat
  | rws, 0 => rws
  | rws, n + 1 =>
    extendRev (((lowerSig1 (rws.getD 1 0) + rws.getD 6 0 + lowerSig0 (rws.getD 14 0) +
      rws.getD 15 0) % M32) :: rws) n

/-- The 64-entry message schedule of section 6.2.2 step 1. -/
def schedule (ws : List Nat) : List Nat := (extendRev ws.reverse 48).reverse

/-- One compression round (section 6.2.2 step 3) on the 8-word state. -/
def round (st : List Nat) (kw : Nat × Nat) : List Nat :=
  match st with
  | [a, b, c, d, e, f, g, h] =>
    let t1 := (h + upperSig1 e + ch e f g + kw.1 + kw.2) % M32
    let t2 := (upperSig0 a + maj a b c) % M32
    [(t1 + t2) % M32, a, b, c, (d + t1) % M32, e, f, g]
  | other => other

/-- Process one 64-byte block (section 6.2.2). -/
def compress (H : List Nat) (block : List Nat) : List Nat :=
  let st := ((K.zip (schedule (toWordsBE block))).foldl round H)
  (H.zip st).map (fun p => (p.1 + p.2) % M32)

/-- The eight 32-bit words of the SHA-256 digest of a byte sequence. -/
def sha256Words (msg : List Nat) : List Nat :=
  (blocks (padBytes msg)).foldl compress H0

/-- Lower-case hex digit. -/
def hexDigit (n : Nat) : Char :=
  if n < 10 then Char.ofNat (48 + n) else Char.ofNat (87 + n)

/-- Eight hex digits of a 32-bit word, most significant first. -/
def wordHex (w : Nat) : List Char :=
  [hexDigit ((w >>> 28) % 16), hexDigit ((w >>> 24) % 16),
   hexDigit ((w >>> 20) % 16), hexDigit ((w >>> 16) % 16),
   hexDigit ((w >>> 12) % 16), hexDigit ((w >>> 8) % 16),
   hexDigit ((w >>> 4) % 16), hexDigit (w % 16)]

/-- `hashlib.sha256(msg).hexdigest()`: the 64-character lower-case hex
string of the digest. -/
def sha256hex (msg : List Nat) : String :=
  ⟨((sha256Words msg).map wordHex).flatten⟩

end SHA256

/-- UTF-8 encoding of one character (the meaning of `str.encode("utf-8")`). -/
def utf8Bytes (c : Char) : List Nat :=
  let n := c.toNat
  if n < 128 then [n]
  else if n < 2048 then [192 + n / 64, 128 + n % 64]
  else if n < 65536 then [224 + n / 4096, 128 + (n / 64) % 64, 128 + n % 64]
  else [240 + n / 262144, 128 + (n / 4096) % 64, 128 + (n / 64) % 64, 128 + n % 64]

/-- The UTF-8 byte sequence of a string. -/
def strBytes (s : String) : List Nat := (s.data.map utf8Bytes).flatten

/-! ### auth_manager.py.  `datetime` instants are `Nat` hours; the JSON
auth file is carried as explicit state (`users`); fresh salts/tokens from
`secrets` are passed in as parameters. -/

/-- An entry of `self.sessions` (auth_manager.py): username and role are
copied from the account at login time, `expires` is the expiry instant. -/
structure Session where
  username : String
  role : String
  expires : Nat
deriving DecidableEq

/-- A user record of the persisted auth file. -/
structure Account where
  username : String
  password : String
  salt : String
  role : String
  createdAt : Nat
deriving DecidableEq

/-- The state of an `AuthManager`: the persisted `users` document and the
in-memory `sessions` dict. -/
structure AuthState where
  users : List (String × Account)
  sessions : List (String × Session)
deriving DecidableEq

/-- The fixed salt hard-coded for the default admin account
(auth_manager.py line 25). -/
def bootSalt : String :=
  "5e884898da28047151d0e56f8dc6292773603d0d6aabbdd62a11ef721d1542d8"

/-- The hard-coded password hash of the default admin account
(auth_manager.py line 26). -/
def bootHash : String :=
  "240be518fabd2724ddb6f04eeb1da5967448d7e831c08c8fa822809f74c720a9"

/-- `AuthManager._hash_password` (auth_manager.py lines 64-76): a special
case returns the hard-coded digest for the default admin password and
salt; every other input is hashed as SHA-256 of salt concatenated with
password. -/
def hashPassword (password salt : String) : String :=
  if password = "admin123" ∧ salt = bootSalt then bootHash
  else SHA256.sha256hex (strBytes (salt ++ password))

/-- `AuthManager.verify_session` (auth_manager.py lines 124-140): returns
the validity flag, the session info, and the (possibly pruned) session
dict.  An empty token is falsy in Python and fails the first guard. -/
def verifySession (now : Nat) (sessions : List (String × Session)) (token : String) :
    Bool × Option Session × List (String × Session) :=
  if token = "" then (false, none, sessions)
  else
    match sessions.find? (fun p => p.1 == token) with
    | none => (false, none, sessions)
    | some p =>
      if now < p.2.expires then (true, some p.2, sessions)
      else (false, none, sessions.filter (fun q => !(q.1 == token)))

/-- ASCII model of Python `str.isupper` on one character. -/
def isUpperA (c : Char) : Bool := 65 ≤ c.toNat && c.toNat ≤ 90

/-- ASCII model of Python `str.islower` on one character. -/
def isLowerA (c : Char) : Bool := 97 ≤ c.toNat && c.toNat ≤ 122

/-- ASCII model of Python `str.isdigit` on one character. -/
def isDigitA (c : Char) : Bool := 48 ≤ c.toNat && c.toNat ≤ 57

/-- `AuthManager._validate_password` (auth_manager.py lines 202-212). -/
def validatePassword (p : String) : Bool × String :=
  if p.data.length < 8 then (false, "Password must be at least 8 characters long")
  else if !(p.data.any isUpperA) then
    (false, "Password must contain at least one uppercase letter")
  else if !(p.data.any isLowerA) then
    (false, "Password must contain at least one lowercase letter")
  else if !(p.data.any isDigitA) then
    (false, "Password must contain at least one number")
  else (true, "Password is valid")

/-- `AuthManager.verify_credentials` (auth_manager.py lines 78-122): on a
hash match a session is registered for the fresh token with the account's
role and expiry `now + 24` hours. -/
def verifyCredentials (now : Nat) (st : AuthState) (username password freshToken : String) :
    Bool × Option String × AuthState :=
  match st.users.find? (fun p => p.1 == username) with
  | none => (false, none, st)
  | some p =>
    if p.2.password = "" ∨ p.2.salt = "" then (false, none, st)
    else if hashPassword password p.2.salt == p.2.password then
      (true, some freshToken,
        ⟨st.users, dinsert st.sessions freshToken ⟨username, p.2.role, now + 24⟩⟩)
    else (false, none, st)

/-- `AuthManager.add_user` (auth_manager.py lines 214-249); `freshSalt`
stands for `self._generate_salt()`. -/
def addUser (now : Nat) (st : AuthState)
    (token newUsername newPassword role freshSalt : String) :
    Bool × String × AuthState :=
  match verifySession now st.sessions token with
  | (valid, sessOpt, sessions1) =>
    let st1 : AuthState := ⟨st.users, sessions1⟩
    match valid, sessOpt with
    | true, some s =>
      if s.role != "admin" then (false, "Unauthorized access", st1)
      else
        match validatePassword newPassword with
        | (ok, msg) =>
          if !ok then (false, msg, st1)
          else if st1.users.any (fun p => p.1 == newUsername) then
            (false, "Username already exists", st1)
          else
            (true, "User added successfully",
              ⟨dinsert st1.users newUsername
                ⟨newUsername, hashPassword newPassword freshSalt, freshSalt, role, now⟩,
               st1.sessions⟩)
    | _, _ => (false, "Unauthorized access", st1)

/-- `AuthManager.remove_user` (auth_manager.py lines 251-278). -/
def removeUser (now : Nat) (st : AuthState) (token username : String) :
    Bool × String × AuthState :=
  match verifySession now st.sessions token with
  | (valid, sessOpt, sessions1) =>
    let st1 : AuthState := ⟨st.users, sessions1⟩
    match valid, sessOpt with
    | true, some s =>
      if s.role != "admin" then (false, "Unauthorized access", st1)
      else if username == "admin" then (false, "Cannot remove admin user", st1)
      else if !(st1.users.any (fun p => p.1 == username)) then
        (false, "User not found", st1)
      else
        (true, "User removed successfully",
          ⟨st1.users.filter (fun p => !(p.1 == username)),
           st1.sessions.filter (fun q => !(q.2.username == username))⟩)
    | _, _ => (false, "Unauthorized access", st1)

/-- Does the token resolve to a valid, unexpired session whose role is
admin?  This is the guard condition of `add_user` / `remove_user`
(`if not valid or not session or session.get("role") != "admin"`). -/
def adminOk (now : Nat) (sessions : List (String × Session)) (token : String) : Bool :=
  match verifySession now sessions token with
  | (valid, some s, _) => valid && (s.role == "admin")
  | _ => false

/-! ### dictionary_manager.py.  The persisted `DICTIONARY` document is the
`Dict` structure; `write_dictionary` (file output plus backup) is modelled
as always succeeding, and CSV rows arrive pre-split into fields. -/

/-- The four sections of the persisted dictionary document. -/
structure Dict where
  vocabulary : List (String × String)
  prefixes : List (String × String)
  tns : List (String × String)
  special_phrases : List (String × String)
deriving DecidableEq

/-- `self.prefix_map` of `DictionaryManager.__init__`. -/
def catPrefixes : List (String × List String) :=
  [("1", ["zz\x27", "ph\x27", "xa\x27", "vor\x27", "mii\x27"]),
   ("2", ["xel\x27"]),
   ("3", ["vor\x27"]),
   ("4", ["mii\x27"]),
   ("5", [])]

/-- `self.default_prefix` of `DictionaryManager.__init__`. -/
def defaultPref : List (String × String) :=
  [("1", "zz\x27"), ("2", "xel\x27"), ("3", "vor\x27"), ("4", "mii\x27"), ("5", "")]

/-- ASCII model of Python `str.isdigit` on a string. -/
def pyIsdigit (s : String) : Bool := !s.data.isEmpty && s.data.all isDigitA

/-- The per-field normalization `x.strip().lower()` of the batch loops. -/
def cleanField (s : String) : String := lowerStr (stripWS s)

/-- `DictionaryManager.add_special_phrase` (dictionary_manager.py lines
188-196): unconditional assignment, then a (modelled-successful) write. -/
def addSpecialPhrase (d : Dict) (english xelthor : String) : Bool × Dict :=
  (true, { d with special_phrases := dinsert d.special_phrases english xelthor })

/-- One iteration of the row loop of `DictionaryManager.batch_add_words`
(dictionary_manager.py lines 224-258), acting on the state
(dictionary, success count, error list). -/
def addWordRow (st : Dict × Nat × List String) (rowNum : Nat) (row : List String) :
    Dict × Nat × List String :=
  match row with
  | [e0, x0, c0] =>
    let english := cleanField e0
    let xelthor := cleanField x0
    let category := cleanField c0
    if !(pyIsdigit category && catPrefixes.any (fun p => p.1 == category)) then
      (st.1, st.2.1, st.2.2 ++
        ["Row " ++ toString rowNum ++ ": Invalid category \x27" ++ category ++
          "\x27. Must be 1-5"])
    else if st.1.vocabulary.any (fun p => p.1 == english) then
      (st.1, st.2.1, st.2.2 ++
        ["Row " ++ toString rowNum ++ ": Word \x27" ++ english ++ "\x27 already exists"])
    else if category == "5" then
      if xelthor.data.length > 4 then
        (st.1, st.2.1, st.2.2 ++
          ["Row " ++ toString rowNum ++ ": Connector \x27" ++ xelthor ++
            "\x27 too long (max 4 characters)"])
      else
        ({ st.1 with vocabulary := dinsert st.1.vocabulary english xelthor },
          st.2.1 + 1, st.2.2)
    else
      let prefs := (((catPrefixes.find? (fun p => p.1 == category)).map Prod.snd).getD [])
      let xel2 :=
        if prefs.any (fun p => startsWithS xelthor p) then xelthor
        else ((((defaultPref.find? (fun p => p.1 == category)).map Prod.snd).getD "") ++ xelthor)
      ({ st.1 with vocabulary := dinsert st.1.vocabulary english xel2 },
        st.2.1 + 1, st.2.2)
  | _ =>
    (st.1, st.2.1, st.2.2 ++
      ["Row " ++ toString rowNum ++
        ": Invalid format. Expected 3 columns (english,xelthor,category)"])

/-- The enumerated row loop of `batch_add_words` (`enumerate(reader, 1)`). -/
def addWordRows : (Dict × Nat × List String) → Nat → List (List String) →
    Dict × Nat × List String
  | st, _, [] => st
  | st, n, row :: rest => addWordRows (addWordRow st n row) (n + 1) rest

/-- `DictionaryManager.batch_add_words` (dictionary_manager.py lines
210-266): returns (success count, errors, persisted dictionary, whether a
write happened).  The write happens once, after the loop, iff the success
count is positive. -/
def batchAddWords (d : Dict) (rows : List (List String)) :
    Nat × List String × Dict × Bool :=
  match addWordRows (d, 0, []) 1 rows with
  | (d1, count, errs) => (count, errs, (if count > 0 then d1 else d), decide (count > 0))

/-- One iteration of the row loop of
`DictionaryManager.batch_add_special_phrases` (lines 281-297). -/
def addPhraseRow (st : Dict × Nat × List String) (rowNum : Nat) (row : List String) :
    Dict × Nat × List String :=
  match row with
  | [e0, x0] =>
    let english := cleanField e0
    let xelthor := cleanField x0
    if st.1.special_phrases.any (fun p => p.1 == english) then
      (st.1, st.2.1, st.2.2 ++
        ["Row " ++ toString rowNum ++ ": Phrase \x27" ++ english ++ "\x27 already exists"])
    else
      ({ st.1 with special_phrases := dinsert st.1.special_phrases english xelthor },
        st.2.1 + 1, st.2.2)
  | _ =>
    (st.1, st.2.1, st.2.2 ++
      ["Row " ++ toString rowNum ++ ": Invalid format. Expected 2 columns (english,xelthor)"])

/-- The enumerated row loop of `batch_add_special_phrases`. -/
def addPhraseRows : (Dict × Nat × List String) → Nat → List (List String) →
    Dict × Nat × List String
  | st, _, [] => st
  | st, n, row :: rest => addPhraseRows (addPhraseRow st n row) (n + 1) rest

/-- `DictionaryManager.batch_add_special_phrases` (dictionary_manager.py
lines 268-305). -/
def batchAddSpecialPhrases (d : Dict) (rows : List (List String)) :
    Nat × List String × Dict × Bool :=
  match addPhraseRows (d, 0, []) 1 rows with
  | (d1, count, errs) => (count, errs, (if count > 0 then d1 else d), decide (count > 0))

/-! ## Theorems -/

theorem str_append_empty (s : String) : s ++ "" = s := by
  cases s with
  | mk l => show String.mk (l ++ []) = _; rw [List.append_nil]

theorem bracketData (w : String) : ("[" ++ w ++ "]").data = '[' :: (w.data ++ [']']) := by
  simp [String.data_append]

theorem dropWhile_eq_self {p : Char → Bool} {l : List Char} (h : ∀ c ∈ l, p c = false) :
    l.dropWhile p = l := by
  cases l with
  | nil => rfl
  | cons a as => rw [List.dropWhile_cons, h a (List.mem_cons_self a as)]; simp

theorem splitWSGo_nospace (l : List Char) (h : ∀ c ∈ l, pySpace c = false) (cur : List Char) :
    splitWSGo l cur = if cur.isEmpty && l.isEmpty then [] else [cur.reverse ++ l] := by
  induction l generalizing cur with
  | nil => cases cur <;> simp [splitWSGo]
  | cons c cs ih =>
    have hc : pySpace c = false := h c (List.mem_cons_self c cs)
    rw [splitWSGo, hc]
    rw [ih (fun d hd => h d (List.mem_cons_of_mem c hd)) (c :: cur)]
    simp

theorem data_ne_nil_of_ne_empty {s : String} (h : s ≠ "") : s.data ≠ [] := by
  cases s with
  | mk l =>
    cases l with
    | nil => exact absurd rfl h
    | cons a as => simp

theorem pySplit_single (s : String) (h : ∀ c ∈ s.data, pySpace c = false) (hne : s ≠ "") :
    pySplit s = [s] := by
  unfold pySplit
  rw [splitWSGo_nospace s.data h []]
  have hd : s.data.isEmpty = false := by
    cases hl : s.data with
    | nil => exact absurd hl (data_ne_nil_of_ne_empty hne)
    | cons a as => rfl
  simp [hd]

theorem stripWS_eq_self (s : String) (h : ∀ c ∈ s.data, pySpace c = false) : stripWS s = s := by
  unfold stripWS
  rw [dropWhile_eq_self h, dropWhile_eq_self (fun c hc => h c (List.mem_reverse.mp hc)),
    List.reverse_reverse]

theorem pySpace_lowerChar (c : Char) : pySpace (lowerChar c) = pySpace c := by
  have ha : ∀ m : Nat, 33 ≤ m →
      (m == 32 || m == 9 || m == 10 || m == 13 || m == 11 || m == 12) = false := by
    intro m hm
    simp only [Bool.or_eq_false_iff, beq_eq_false_iff_ne]
    omega
  unfold lowerChar
  split
  · rename_i h
    have h32 : (Char.ofNat (c.toNat + 32)).toNat = c.toNat + 32 := by
      unfold Char.ofNat
      rw [dif_pos (Or.inl (by omega : c.toNat + 32 < 55296))]
      rfl
    unfold pySpace
    rw [h32, ha _ (by omega), ha _ (by omega)]
  · rfl

theorem lowerStr_nospace (s : String) (h : ∀ c ∈ s.data, pySpace c = false) :
    ∀ c ∈ (lowerStr s).data, pySpace c = false := by
  intro c hc
  simp only [lowerStr, List.mem_map] at hc
  obtain ⟨d, hd, rfl⟩ := hc
  rw [pySpace_lowerChar]
  exact h d hd

theorem lowerStr_ne_empty {s : String} (h : s ≠ "") : lowerStr s ≠ "" := by
  intro he
  have := congrArg String.data he
  simp only [lowerStr] at this
  exact data_ne_nil_of_ne_empty h (List.map_eq_nil_iff.mp this)

theorem isPrefixOf_cons_ne {a b : Char} (as bs : List Char) (h : (a == b) = false) :
    List.isPrefixOf (a :: as) (b :: bs) = false := by
  simp [List.isPrefixOf, h]

theorem startsWith_bracket_false (s p : String) (c : Char) (cs : List Char)
    (hp : p.data = c :: cs) (hc : (c == '[') = false) :
    startsWithS ("[" ++ s ++ "]") p = false := by
  simp [startsWithS, bracketData, hp, List.isPrefixOf, hc]

theorem isVerbForm_bracket (s : String) : isVerbForm ("[" ++ s ++ "]") = false := by
  simp only [isVerbForm, verbPrefixes, List.any_cons, List.any_nil, Bool.or_false]
  rw [startsWith_bracket_false s "zz\x27" 'z' _ rfl (by decide),
    startsWith_bracket_false s "ph\x27" 'p' _ rfl (by decide),
    startsWith_bracket_false s "xa\x27" 'x' _ rfl (by decide),
    startsWith_bracket_false s "vor\x27" 'v' _ rfl (by decide),
    startsWith_bracket_false s "mii\x27" 'm' _ rfl (by decide)]
  rfl

theorem bracketRev (w : String) :
    ("[" ++ w ++ "]").data.reverse = ']' :: (w.data.reverse ++ ['[']) := by
  rw [bracketData]
  simp

theorem endsWith_bracket_false (w m : String) (c : Char) (cs : List Char)
    (hm : m.data.reverse = c :: cs) (hc : (c == ']') = false) :
    endsWithS ("[" ++ w ++ "]") m = false := by
  simp [endsWithS, bracketRev, hm, List.isPrefixOf, hc]

theorem stripTense_bracket (w : String) :
    stripTense ("[" ++ w ++ "]") = ("[" ++ w ++ "]", "present") := by
  unfold stripTense
  have hfind : tones.find?
      (fun p => decide (p.2 ≠ "") && endsWithS ("[" ++ w ++ "]") p.2) = none := by
    apply List.find?_eq_none.mpr
    intro p hp
    simp only [tones, List.mem_cons, List.not_mem_nil, or_false] at hp
    rcases hp with rfl | rfl | rfl | rfl
    · simp
    · simp [endsWith_bracket_false w "-pa" 'a' _ rfl (by decide)]
    · simp [endsWith_bracket_false w "-zi" 'i' _ rfl (by decide)]
    · simp [endsWith_bracket_false w "-th" 'h' _ rfl (by decide)]
  rw [hfind]

theorem find?_eq_none_of_head {L : List (String × String)} {b : String}
    (hb : b.data.head? = some '[')
    (hL : ∀ p ∈ L, p.1.data.head? ≠ some '[') :
    L.find? (fun p => p.1 == b) = none := by
  apply List.find?_eq_none.mpr
  intro p hp he
  rw [beq_iff_eq] at he
  exact hL p hp (by rw [he]; exact hb)

theorem xelToEng_bracket (w : String) : xelToEng ("[" ++ w ++ "]") = none := by
  unfold xelToEng
  rw [find?_eq_none_of_head (by rw [bracketData]; rfl) (by decide)]
  rfl

theorem startsWith_bracket_lb (w : String) : startsWithS ("[" ++ w ++ "]") "[" = true := by
  simp [startsWithS, bracketData, List.isPrefixOf]

theorem endsWith_bracket_rb (w : String) : endsWithS ("[" ++ w ++ "]") "]" = true := by
  simp [endsWithS, bracketRev, List.isPrefixOf]

theorem length_dropWhile_le {α : Type} (p : α → Bool) (l : List α) :
    (l.dropWhile p).length ≤ l.length := by
  induction l with
  | nil => simp
  | cons a as ih =>
    rw [List.dropWhile_cons]
    split
    · exact le_trans ih (by simp)
    · simp

theorem head_false_of_dropWhile_self {p : Char → Bool} {c : Char} {cs : List Char}
    (h : (c :: cs).dropWhile p = c :: cs) : p c = false := by
  by_contra hb
  rw [Bool.not_eq_false] at hb
  rw [List.dropWhile_cons, if_pos hb] at h
  have h1 := length_dropWhile_le p cs
  have h2 := congrArg List.length h
  simp at h2
  omega

theorem stripBoth_bracket (w : String)
    (hfront : w.data.dropWhile (fun c => (['[', ']'] : List Char).contains c) = w.data)
    (hback : w.data.reverse.dropWhile (fun c => (['[', ']'] : List Char).contains c) =
      w.data.reverse) :
    stripBoth ['[', ']'] ("[" ++ w ++ "]") = w := by
  unfold stripBoth
  rw [bracketData]
  rw [List.dropWhile_cons, if_pos (by decide)]
  have hmid : (w.data ++ [']']).dropWhile (fun c => (['[', ']'] : List Char).contains c) =
      w.data ++ [']'] ∨ (w.data = [] ∧
      (w.data ++ [']']).dropWhile (fun c => (['[', ']'] : List Char).contains c) = []) := by
    cases hw : w.data with
    | nil => right; exact ⟨rfl, by simp⟩
    | cons c cs =>
      left
      have hc : (['[', ']'] : List Char).contains c = false := by
        apply @head_false_of_dropWhile_self (fun c => (['[', ']'] : List Char).contains c) c cs
        rw [← hw]; exact hfront
      rw [List.cons_append, List.dropWhile_cons, if_neg (by simpa using hc)]
  rcases hmid with hmid | ⟨hw, hmid⟩
  · rw [hmid]
    rw [show (w.data ++ [']']).reverse = ']' :: w.data.reverse by simp]
    rw [List.dropWhile_cons]
    rw [if_pos (by decide)]
    rw [hback]
    rw [List.reverse_reverse]
  · rw [hmid]
    simp only [List.reverse_nil, List.dropWhile_nil]
    cases w with
    | mk l => simp at hw; rw [hw]

theorem engStep_bracket (w : String)
    (hfront : w.data.dropWhile (fun c => (['[', ']'] : List Char).contains c) = w.data)
    (hback : w.data.reverse.dropWhile (fun c => (['[', ']'] : List Char).contains c) =
      w.data.reverse) :
    engStep [] ("[" ++ w ++ "]") = [w] := by
  unfold engStep
  rw [stripTense_bracket]
  simp only [xelToEng_bracket, startsWith_bracket_lb, endsWith_bracket_rb, Bool.and_self,
    if_true, List.nil_append]
  rw [stripBoth_bracket w hfront hback]

theorem bracket_ne_empty (w : String) : ("[" ++ w ++ "]") ≠ "" := by
  intro he
  have h := congrArg String.data he
  rw [bracketData] at h
  simp at h

theorem bracket_nospace (w : String) (hw : ∀ c ∈ w.data, pySpace c = false) :
    ∀ c ∈ ("[" ++ w ++ "]").data, pySpace c = false := by
  rw [bracketData]
  intro c hc
  rcases List.mem_cons.mp hc with rfl | hc
  · decide
  rcases List.mem_append.mp hc with hc | hc
  · exact hw c hc
  · rcases List.mem_singleton.mp hc with rfl
    decide

theorem translateToEnglish_bracket (w : String)
    (hw : ∀ c ∈ w.data, pySpace c = false)
    (hfront : w.data.dropWhile (fun c => (['[', ']'] : List Char).contains c) = w.data)
    (hback : w.data.reverse.dropWhile (fun c => (['[', ']'] : List Char).contains c) =
      w.data.reverse) :
    translateToEnglish ("[" ++ w ++ "]") = w := by
  unfold translateToEnglish
  rw [if_neg (bracket_ne_empty w)]
  rw [stripWS_eq_self _ (bracket_nospace w hw),
    pySplit_single _ (bracket_nospace w hw) (bracket_ne_empty w)]
  show joinSpace (applyGrammarRules (engStep [] ("[" ++ w ++ "]")) false) = w
  rw [engStep_bracket w hfront hback]
  rfl

theorem firstPass_miss (word : String)
    (h : engToXel (stripBoth ['.', ',', '!', '?'] word) = none) :
    firstPass word = "[" ++ stripBoth ['.', ',', '!', '?'] word ++ "]" := by
  unfold firstPass
  simp only []
  rw [h]

theorem translateToXelthor_unknown (w : String) (hne : w ≠ "")
    (hw : ∀ c ∈ w.data, pySpace c = false)
    (hmiss : engToXel (stripBoth ['.', ',', '!', '?'] (lowerStr w)) = none) :
    translateToXelthor w "present" = "[" ++ stripBoth ['.', ',', '!', '?'] (lowerStr w) ++ "]" := by
  unfold translateToXelthor
  rw [if_neg hne]
  rw [stripWS_eq_self _ (lowerStr_nospace w hw),
    pySplit_single _ (lowerStr_nospace w hw) (lowerStr_ne_empty hne)]
  show joinSpace (([firstPass (lowerStr w)].map
    (fun x => if isVerbForm x then applyTense x "present" else x))) = _
  rw [firstPass_miss _ hmiss]
  simp only [List.map, isVerbForm_bracket, if_neg]
  rfl

theorem applyTense_eq (w tense : String) : applyTense w tense = w ++ toneSuffix tense := by
  unfold applyTense toneSuffix
  cases h : tones.find? (fun p => p.1 == tense) with
  | none => exact (str_append_empty w).symm
  | some p => rfl

theorem translateToXelthor_shape (text tense : String) :
    translateToXelthor text tense =
      joinSpace ((applyGrammarRules ((pySplit (stripWS (lowerStr text))).map firstPass)
        true).map (fun w => if isVerbForm w then w ++ toneSuffix tense else w)) := by
  unfold translateToXelthor
  split
  · rename_i h
    rw [h]
    rfl
  · apply congrArg joinSpace
    apply List.map_congr_left
    intro a _
    rw [applyTense_eq]

theorem toneSuffix_unknown (tense : String)
    (h : tones.find? (fun p => p.1 == tense) = none) : toneSuffix tense = "" := by
  unfold toneSuffix
  rw [h]

/-- C1: evidence for the code bug.  The spec and the claim say that with 3
or more tokens and a verb among them, `translate_to_xelthor` reorders the
output verb-first.  The code passes the already-translated tokens to
`apply_grammar_rules`, whose forward branch looks them up in the
English-to-Xelthor map, so the verb scan never succeeds and the order is
always preserved: on "traveler travel star" the output keeps the token
order, while `apply_grammar_rules` applied to the English tokens (as the
claim describes) would reorder verb-first. -/
theorem translate_no_reorder_eval :
    translateToXelthor "traveler travel star" "present" = "xel\x27thor zz\x27rix xel\x27ka" ∧
    translateToXelthor "traveler travel star" "present" ≠ "zz\x27rix xel\x27ka xel\x27thor" ∧
    applyGrammarRules (["traveler", "travel", "star"].map firstPass) true =
      ["xel\x27thor", "zz\x27rix", "xel\x27ka"] ∧
    applyGrammarRules ["traveler", "travel", "star"] true = ["travel", "star", "traveler"] := by
  refine ⟨by decide, by decide, by decide, by decide⟩

/-- C2: counterexample to the claim as stated.  ("communicate", "ph'sor")
is a vocabulary entry, but the reverse map is last-writer-wins and "share"
also maps to "ph'sor", so the round trip returns "share", not
"communicate". -/
theorem roundtrip_counterexample :
    ("communicate", "ph\x27sor") ∈ vocab ∧
    translateToEnglish (translateToXelthor "communicate" "present") = "share" ∧
    translateToEnglish (translateToXelthor "communicate" "present") ≠ "communicate" := by
  refine ⟨by decide, by decide, by decide⟩

/-- C2 (amended): for every vocabulary entry (e, x) such that the reverse
map sends x back to e (e is the last writer for x), the present-tense
round trip `translate_to_english(translate_to_xelthor(e))` returns e. -/
theorem roundtrip_last_writer :
    ∀ p ∈ vocab, xelToEng p.2 = some p.1 →
      translateToEnglish (translateToXelthor p.1 "present") = p.1 := by decide

/-- C2: witness instantiating the amended round-trip theorem at the entry
("travel", "zz'rix"). -/
theorem roundtrip_last_writer_witness :
    ("travel", "zz\x27rix") ∈ vocab ∧ xelToEng "zz\x27rix" = some "travel" ∧
    translateToEnglish (translateToXelthor "travel" "present") = "travel" :=
  ⟨by decide, by decide, roundtrip_last_writer ("travel", "zz\x27rix") (by decide) (by decide)⟩

/-- C3: counterexample to the claim as stated.  For the future suffix the
claim says "will" is prepended once, and for the past suffix "did " is
prefixed; on the single-token inputs "zz'rix-zi" and "zz'rix-pa" the code
returns plain "travel", because the tense-context branches of
`translate_to_english` require previously emitted words. -/
theorem tense_strip_counterexample :
    xelToEng "zz\x27rix" = some "travel" ∧
    translateToEnglish ("zz\x27rix" ++ "-zi") = "travel" ∧
    translateToEnglish ("zz\x27rix" ++ "-zi") ≠ "will travel" ∧
    translateToEnglish ("zz\x27rix" ++ "-pa") = "travel" ∧
    translateToEnglish ("zz\x27rix" ++ "-pa") ≠ "did travel" := by
  refine ⟨by decide, by decide, by decide, by decide, by decide⟩

/-- C3 (amended): for each non-empty tense suffix and every Xel'thor form
x in the reverse map, `translate_to_english(x + suffix)` strips the suffix
and recovers x's English mapping, with no tense wording applied (the
wording branches never fire for a single-token input). -/
theorem tense_strip_no_wording :
    ∀ p ∈ vocab, ∀ q ∈ tones, q.2 ≠ "" →
      (xelToEng p.2).isSome = true ∧
      translateToEnglish (p.2 ++ q.2) = (xelToEng p.2).getD "" := by decide

/-- C3: witness instantiating the amended theorem at ("travel", "zz'rix")
with the future suffix "-zi". -/
theorem tense_strip_no_wording_witness :
    ("travel", "zz\x27rix") ∈ vocab ∧ ("future", "-zi") ∈ tones ∧
    translateToEnglish ("zz\x27rix" ++ "-zi") = (xelToEng "zz\x27rix").getD "" :=
  ⟨by decide, by decide,
    (tense_strip_no_wording ("travel", "zz\x27rix") (by decide) ("future", "-zi") (by decide)
      (by decide)).2⟩

/-- C4: after the word-order transform, `translate_to_xelthor` appends the
selected tense's suffix (empty for present, "-pa" past, "-zi" future,
"-th" eternal) to exactly those output tokens whose translated form starts
with one of the verb test's five strings, and an unrecognized tense name
behaves as present (`apply_tense` appends nothing). -/
theorem tense_affixation_all_verb_tokens :
    (∀ w tense, applyTense w tense = w ++ toneSuffix tense) ∧
    (toneSuffix "present" = "" ∧ toneSuffix "past" = "-pa" ∧ toneSuffix "future" = "-zi" ∧
      toneSuffix "eternal" = "-th") ∧
    (∀ text tense, translateToXelthor text tense =
      joinSpace ((applyGrammarRules ((pySplit (stripWS (lowerStr text))).map firstPass)
        true).map (fun w => if isVerbForm w then w ++ toneSuffix tense else w))) ∧
    (∀ tense, tones.find? (fun p => p.1 == tense) = none →
      ∀ text, translateToXelthor text tense = translateToXelthor text "present") := by
  refine ⟨applyTense_eq, by decide, translateToXelthor_shape, ?_⟩
  intro tense h text
  rw [translateToXelthor_shape, translateToXelthor_shape, toneSuffix_unknown tense h,
    show toneSuffix "present" = "" from rfl]

/-- C4: witness instantiating the affixation theorem at "zz'rix"/"future"
and the unrecognized tense "sometime". -/
theorem tense_affixation_all_verb_tokens_witness :
    applyTense "zz\x27rix" "future" = "zz\x27rix" ++ toneSuffix "future" ∧
    tones.find? (fun p => p.1 == "sometime") = none ∧
    translateToXelthor "travel" "sometime" = translateToXelthor "travel" "present" :=
  ⟨tense_affixation_all_verb_tokens.1 "zz\x27rix" "future", by decide,
    tense_affixation_all_verb_tokens.2.2.2 "sometime" (by decide) "travel"⟩

/-- C5: counterexample to the claim as stated.  For the single word "a]"
(absent from the vocabulary), `translate_to_xelthor` yields "[a]]" as the
claim says, but translating back yields "a", not "a]": `strip("[]")`
removes every leading and trailing bracket character, so the unwrap is not
verbatim for words with edge brackets. -/
theorem unknown_word_counterexample :
    translateToXelthor "a]" "present" = "[a]]" ∧
    translateToEnglish "[a]]" = "a" ∧
    translateToEnglish "[a]]" ≠ "a]" := by
  refine ⟨by decide, by decide, by decide⟩

/-- C5 (amended): a single whitespace-free word w whose cleaned form is
absent from the vocabulary translates to the bracket-wrapped cleaned form;
and "[w]" translates back to w verbatim provided w carries no leading or
trailing square-bracket characters (which `strip("[]")` would also eat). -/
theorem unknown_word_roundtrip :
    (∀ w : String, w ≠ "" → (∀ c ∈ w.data, pySpace c = false) →
      engToXel (stripBoth ['.', ',', '!', '?'] (lowerStr w)) = none →
      translateToXelthor w "present" =
        "[" ++ stripBoth ['.', ',', '!', '?'] (lowerStr w) ++ "]") ∧
    (∀ w : String, (∀ c ∈ w.data, pySpace c = false) →
      w.data.dropWhile (fun c => (['[', ']'] : List Char).contains c) = w.data →
      w.data.reverse.dropWhile (fun c => (['[', ']'] : List Char).contains c) =
        w.data.reverse →
      translateToEnglish ("[" ++ w ++ "]") = w) :=
  ⟨translateToXelthor_unknown, translateToEnglish_bracket⟩

/-- C5: witness instantiating both halves of the amended theorem at the
word "hello". -/
theorem unknown_word_roundtrip_witness :
    translateToXelthor "hello" "present" = "[hello]" ∧
    translateToEnglish "[hello]" = "hello" := by
  constructor
  · exact (unknown_word_roundtrip.1 "hello" (by decide) (by decide) (by decide)).trans (by decide)
  · rw [show ("[hello]" : String) = "[" ++ "hello" ++ "]" from by decide]
    exact unknown_word_roundtrip.2 "hello" (by decide) (by decide) (by decide)

/-- Test vector: SHA-256 of the empty message (FIPS 180-4 / NIST). -/
theorem sha256_empty :
    SHA256.sha256hex (strBytes "") =
      "e3b0c44298fc1c149afbf4c8996fb92427ae41e4649b934ca495991b7852b855" := by decide

set_option maxRecDepth 8192 in
/-- C7: counterexample to the claim as stated.  At the special-cased pair
(password "admin123", the fixed bootstrap salt), `_hash_password` returns
the hard-coded digest, which is SHA-256 of the password alone, not SHA-256
of salt concatenated with password. -/
theorem hash_special_case_counterexample :
    hashPassword "admin123" bootSalt ≠
      SHA256.sha256hex (strBytes (bootSalt ++ "admin123")) ∧
    hashPassword "admin123" bootSalt = bootHash ∧
    bootHash = SHA256.sha256hex (strBytes "admin123") := by
  refine ⟨by decide, rfl, by decide⟩

/-- C7 (amended): for every password and salt other than the special-cased
bootstrap pair, the hash used for storage (`add_user`) and for credential
comparison (`verify_credentials`), both of which call `_hash_password`,
equals the SHA-256 hex digest of the salt concatenated with the
password. -/
theorem hash_salted_sha256 :
    ∀ password salt : String, ¬(password = "admin123" ∧ salt = bootSalt) →
      hashPassword password salt = SHA256.sha256hex (strBytes (salt ++ password)) := by
  intro p s h
  unfold hashPassword
  rw [if_neg h]

/-- C7: witness instantiating the amended hash theorem at password "x" and
salt "y". -/
theorem hash_salted_sha256_witness :
    hashPassword "x" "y" = SHA256.sha256hex (strBytes ("y" ++ "x")) :=
  hash_salted_sha256 "x" "y" (by decide)

/-- C6: an `add_user` call whose token does not resolve to a valid,
unexpired admin session fails with "Unauthorized access" and leaves the
credential store (the users document) unchanged; and `remove_user` with
target "admin" always fails and leaves the users document unchanged,
whatever the caller. -/
theorem add_user_guard :
    (∀ now st token u pw role salt, adminOk now st.sessions token = false →
      (addUser now st token u pw role salt).1 = false ∧
      (addUser now st token u pw role salt).2.1 = "Unauthorized access" ∧
      (addUser now st token u pw role salt).2.2.users = st.users) ∧
    (∀ now st token, (removeUser now st token "admin").1 = false ∧
      (removeUser now st token "admin").2.2.users = st.users) := by
  constructor
  · intro now st token u pw role salt h
    unfold addUser
    unfold adminOk at h
    rcases hv : verifySession now st.sessions token with ⟨valid, sessOpt, sessions1⟩
    rw [hv] at h
    cases valid with
    | false => cases sessOpt <;> simp
    | true =>
      cases sessOpt with
      | none => simp
      | some s =>
        simp only [Bool.true_and] at h
        have hne : s.role ≠ "admin" := by simpa [beq_eq_false_iff_ne] using h
        simp [hne]
  · intro now st token
    unfold removeUser
    rcases hv : verifySession now st.sessions token with ⟨valid, sessOpt, sessions1⟩
    cases valid with
    | false => cases sessOpt <;> simp
    | true =>
      cases sessOpt with
      | none => simp
      | some s =>
        by_cases hr : (s.role != "admin") = true
        · simp [hr]
        · simp only [Bool.not_eq_true] at hr
          simp [hr]

/-- C6: witness instantiating the guard theorem on an empty session
registry, where the token "t" resolves to no session. -/
theorem add_user_guard_witness :
    adminOk 0 (AuthState.mk [] []).sessions "t" = false ∧
    (addUser 0 (AuthState.mk [] []) "t" "u" "Passw0rd" "user" "salt").1 = false ∧
    (addUser 0 (AuthState.mk [] []) "t" "u" "Passw0rd" "user" "salt").2.1 =
      "Unauthorized access" ∧
    (addUser 0 (AuthState.mk [] []) "t" "u" "Passw0rd" "user" "salt").2.2.users = [] ∧
    (removeUser 0 (AuthState.mk [] []) "t" "admin").1 = false := by
  have h1 := add_user_guard.1 0 (AuthState.mk [] []) "t" "u" "Passw0rd" "user" "salt" (by decide)
  have h2 := add_user_guard.2 0 (AuthState.mk [] []) "t"
  exact ⟨by decide, h1.1, h1.2.1, h1.2.2, h2.1⟩

/-- C8: `verify_session` fails on an unknown token; on a registered but
expired token it fails, deletes the session, and any subsequent
verification of the same token also fails; on a registered unexpired token
it succeeds with the stored session info; and `verify_credentials`
registers exactly the username and the account's role (with expiry
now + 24 hours) in that session at login time. -/
theorem verify_session_spec :
    (∀ (now : Nat) (sessions : List (String × Session)) (token : String),
      sessions.find? (fun p => p.1 == token) = none →
      verifySession now sessions token = (false, none, sessions)) ∧
    (∀ (now : Nat) (sessions : List (String × Session)) (token : String)
        (p : String × Session), token ≠ "" →
      sessions.find? (fun q => q.1 == token) = some p → p.2.expires ≤ now →
      verifySession now sessions token =
        (false, none, sessions.filter (fun q => !(q.1 == token))) ∧
      (verifySession now sessions token).2.2.find? (fun q => q.1 == token) = none ∧
      ∀ now2 : Nat, (verifySession now2 (verifySession now sessions token).2.2 token).1 =
        false) ∧
    (∀ (now : Nat) (sessions : List (String × Session)) (token : String)
        (p : String × Session), token ≠ "" →
      sessions.find? (fun q => q.1 == token) = some p → now < p.2.expires →
      verifySession now sessions token = (true, some p.2, sessions)) ∧
    (∀ (now : Nat) (st : AuthState) (username password freshToken : String)
        (acct : String × Account),
      st.users.find? (fun q => q.1 == username) = some acct →
      acct.2.password ≠ "" → acct.2.salt ≠ "" →
      hashPassword password acct.2.salt = acct.2.password →
      verifyCredentials now st username password freshToken =
        (true, some freshToken,
          ⟨st.users, dinsert st.sessions freshToken ⟨username, acct.2.role, now + 24⟩⟩)) := by
  have hfilter : ∀ (sessions : List (String × Session)) (token : String),
      (sessions.filter (fun q => !(q.1 == token))).find? (fun q => q.1 == token) = none := by
    intro sessions token
    apply List.find?_eq_none.mpr
    intro q hq
    have := List.of_mem_filter hq
    simp at this
    simp [this]
  refine ⟨?_, ?_, ?_, ?_⟩
  · intro now sessions token hmiss
    unfold verifySession
    by_cases ht : token = ""
    · simp [ht]
    · rw [if_neg ht, hmiss]
  · intro now sessions token p ht hfind hexp
    have heq : verifySession now sessions token =
        (false, none, sessions.filter (fun q => !(q.1 == token))) := by
      unfold verifySession
      rw [if_neg ht, hfind]
      have hnlt : ¬ now < p.2.expires := by omega
      simp [hnlt]
    refine ⟨heq, ?_, ?_⟩
    · rw [heq]
      exact hfilter sessions token
    · intro now2
      rw [heq]
      unfold verifySession
      rw [if_neg ht, hfilter sessions token]
  · intro now sessions token p ht hfind hlt
    unfold verifySession
    rw [if_neg ht, hfind]
    simp [hlt]
  · intro now st username password freshToken acct hfind hpw hsalt hhash
    unfold verifyCredentials
    rw [hfind]
    have hno : ¬(acct.2.password = "" ∨ acct.2.salt = "") := by tauto
    simp [hno, hhash]

/-- C8: witness instantiating all four conjuncts at concrete registries:
a miss, an expired session (expiry 5, now 10), an unexpired session
(now 3), and a login with the bootstrap admin credentials. -/
theorem verify_session_spec_witness :
    ((verifySession 0 [] "t").1 = false) ∧
    (verifySession 10 [("t", Session.mk "u" "user" 5)] "t" =
      (false, none, []) ∧
      (verifySession 7 (verifySession 10 [("t", Session.mk "u" "user" 5)] "t").2.2 "t").1 =
        false) ∧
    (verifySession 3 [("t", Session.mk "u" "user" 5)] "t" =
      (true, some (Session.mk "u" "user" 5), [("t", Session.mk "u" "user" 5)])) ∧
    (verifyCredentials 2 (AuthState.mk [("admin", Account.mk "admin" bootHash bootSalt "admin" 0)] [])
      "admin" "admin123" "tok" =
      (true, some "tok",
        AuthState.mk [("admin", Account.mk "admin" bootHash bootSalt "admin" 0)]
          [("tok", Session.mk "admin" "admin" 26)])) := by
  have h1 := verify_session_spec.1 0 [] "t" (by decide)
  have h2 := verify_session_spec.2.1 10 [("t", Session.mk "u" "user" 5)] "t"
    ("t", Session.mk "u" "user" 5) (by decide) (by decide) (by decide)
  have h3 := verify_session_spec.2.2.1 3 [("t", Session.mk "u" "user" 5)] "t"
    ("t", Session.mk "u" "user" 5) (by decide) (by decide) (by decide)
  have h4 := verify_session_spec.2.2.2 2
    (AuthState.mk [("admin", Account.mk "admin" bootHash bootSalt "admin" 0)] [])
    "admin" "admin123" "tok" ("admin", Account.mk "admin" bootHash bootSalt "admin" 0)
    (by decide) (by decide) (by decide) (by decide)
  refine ⟨by rw [h1], ⟨by rw [h2.1]; decide, ?_⟩, by rw [h3], by rw [h4]; decide⟩
  have := h2.2.2 7
  simpa using this

theorem find?_map_update {α : Type} (k : String) (v : α) :
    ∀ (m : List (String × α)), m.any (fun p => p.1 == k) = true →
      (m.map (fun p => if p.1 == k then (k, v) else p)).find? (fun p => p.1 == k) =
        some (k, v) := by
  intro m
  induction m with
  | nil => intro h; simp at h
  | cons a as ih =>
    intro h
    simp only [List.map_cons]
    cases ha : (a.1 == k) with
    | true => simp [ha]
    | false =>
      rw [if_neg (by simp [ha])]
      rw [List.find?_cons_of_neg _ (by simp [ha])]
      apply ih
      simpa [List.any_cons, ha] using h

theorem find?_append_none {α : Type} (p : α → Bool) (l1 l2 : List α)
    (h : l1.find? p = none) : (l1 ++ l2).find? p = l2.find? p := by
  induction l1 with
  | nil => simp
  | cons a as ih =>
    rw [List.find?_cons] at h
    rcases hp : p a with _ | _
    · rw [hp] at h
      simp only [List.cons_append, List.find?_cons, hp]
      exact ih h
    · rw [hp] at h
      simp at h

theorem find?_dinsert_self {α : Type} (m : List (String × α)) (k : String) (v : α) :
    (dinsert m k v).find? (fun p => p.1 == k) = some (k, v) := by
  unfold dinsert
  split
  · rename_i h
    exact find?_map_update k v m h
  · rename_i h
    have hfalse : m.any (fun p => p.1 == k) = false := eq_false_of_ne_true h
    rw [find?_append_none _ _ _ (List.find?_eq_none.mpr ?_)]
    · simp
    · intro x hx
      have hone := List.any_eq_false.mp hfalse x hx
      simp only [Bool.not_eq_true] at hone
      simp [hone]

/-- C10: `add_special_phrase` succeeds and overwrites silently even when
the english key is already present, while `batch_add_special_phrases`
rejects a row whose english key already exists with a per-row error and
leaves the state unchanged. -/
theorem special_phrase_overwrite :
    (∀ d e x, d.special_phrases.any (fun p => p.1 == e) = true →
      (addSpecialPhrase d e x).1 = true ∧
      ((addSpecialPhrase d e x).2.special_phrases.find? (fun p => p.1 == e)) = some (e, x)) ∧
    (∀ st n e0 x0, st.1.special_phrases.any (fun p => p.1 == cleanField e0) = true →
      addPhraseRow st n [e0, x0] = (st.1, st.2.1, st.2.2 ++
        ["Row " ++ toString n ++ ": Phrase \x27" ++ cleanField e0 ++ "\x27 already exists"])) := by
  constructor
  · intro d e x _
    exact ⟨rfl, find?_dinsert_self d.special_phrases e x⟩
  · intro st n e0 x0 h
    simp [addPhraseRow, h]

/-- C10: witness instantiating both parts on a table already containing
the key "hi". -/
theorem special_phrase_overwrite_witness :
    ((Dict.mk [] [] [] [("hi", "xel")]).special_phrases.any (fun p => p.1 == "hi")) = true ∧
    (addSpecialPhrase (Dict.mk [] [] [] [("hi", "xel")]) "hi" "newxel").1 = true ∧
    ((addSpecialPhrase (Dict.mk [] [] [] [("hi", "xel")]) "hi"
      "newxel").2.special_phrases.find? (fun p => p.1 == "hi")) = some ("hi", "newxel") ∧
    addPhraseRow (Dict.mk [] [] [] [("hi", "xel")], 0, []) 4 ["hi", "x2"] =
      (Dict.mk [] [] [] [("hi", "xel")], 0, ["Row 4: Phrase \x27hi\x27 already exists"]) := by
  have h1 := special_phrase_overwrite.1 (Dict.mk [] [] [] [("hi", "xel")]) "hi" "newxel"
    (by decide)
  have h2 := special_phrase_overwrite.2 (Dict.mk [] [] [] [("hi", "xel")], 0, []) 4 "hi" "x2"
    (by decide)
  refine ⟨by decide, h1.1, h1.2, by rw [h2]; decide⟩

/-- C9: `batch_add_words` processes rows independently: a wrong column
count, an invalid category, or a duplicate english key each append an
error string carrying the 1-based row number and the loop continues; a
non-connector row without a valid category prefix gets the category's
default prefix prepended; the call returns (successCount, errorList) and
writes once iff successCount > 0; and the 3-row example with a malformed
second row yields successCount 2, exactly the one "Row 2" error, and both
valid entries. -/
theorem batch_add_words_rows :
    (∀ st n (row : List String), row.length ≠ 3 →
      addWordRow st n row = (st.1, st.2.1, st.2.2 ++
        ["Row " ++ toString n ++
          ": Invalid format. Expected 3 columns (english,xelthor,category)"])) ∧
    (∀ st n (rows : List (List String)) row,
      addWordRows st n (row :: rows) = addWordRows (addWordRow st n row) (n + 1) rows) ∧
    (∀ st n e0 x0 c0,
      (pyIsdigit (cleanField c0) && catPrefixes.any (fun p => p.1 == cleanField c0)) =
        false →
      addWordRow st n [e0, x0, c0] = (st.1, st.2.1, st.2.2 ++
        ["Row " ++ toString n ++ ": Invalid category \x27" ++ cleanField c0 ++
          "\x27. Must be 1-5"])) ∧
    (∀ st n e0 x0 c0,
      (pyIsdigit (cleanField c0) && catPrefixes.any (fun p => p.1 == cleanField c0)) =
        true →
      st.1.vocabulary.any (fun p => p.1 == cleanField e0) = true →
      addWordRow st n [e0, x0, c0] = (st.1, st.2.1, st.2.2 ++
        ["Row " ++ toString n ++ ": Word \x27" ++ cleanField e0 ++ "\x27 already exists"])) ∧
    (∀ st n e0 x0 c0,
      (pyIsdigit (cleanField c0) && catPrefixes.any (fun p => p.1 == cleanField c0)) =
        true →
      st.1.vocabulary.any (fun p => p.1 == cleanField e0) = false →
      (cleanField c0 == "5") = false →
      ((((catPrefixes.find? (fun p => p.1 == cleanField c0)).map Prod.snd).getD []).any
        (fun p => startsWithS (cleanField x0) p)) = false →
      addWordRow st n [e0, x0, c0] =
        (Dict.mk (dinsert st.1.vocabulary (cleanField e0)
            ((((defaultPref.find? (fun p => p.1 == cleanField c0)).map Prod.snd).getD "") ++
              cleanField x0))
          st.1.prefixes st.1.tns st.1.special_phrases,
          st.2.1 + 1, st.2.2)) ∧
    (∀ d rows, ((batchAddWords d rows).2.2.2 = true ↔ 0 < (batchAddWords d rows).1)) ∧
    (batchAddWords (Dict.mk [] [] [] [])
      [["hello", "zz\x27lor", "1"], ["bad", "row"], ["world", "xel\x27ka", "2"]] =
      (2, ["Row 2: Invalid format. Expected 3 columns (english,xelthor,category)"],
        Dict.mk [("hello", "zz\x27lor"), ("world", "xel\x27ka")] [] [] [], true)) := by
  refine ⟨?_, fun st n rows row => rfl, ?_, ?_, ?_, ?_, by decide⟩
  · intro st n row h
    rcases row with _ | ⟨a, _ | ⟨b, _ | ⟨c, _ | ⟨d, rest⟩⟩⟩⟩
    · rfl
    · rfl
    · rfl
    · exact absurd rfl h
    · rfl
  · intro st n e0 x0 c0 hcat
    simp [addWordRow, hcat]
  · intro st n e0 x0 c0 hcat hdup
    simp [addWordRow, hcat, hdup]
  · intro st n e0 x0 c0 hcat hdup hc5 hpref
    simp [addWordRow, hcat, hdup, hc5, hpref]
  · intro d rows
    unfold batchAddWords
    rcases h : addWordRows (d, 0, []) 1 rows with ⟨d1, c, errs⟩
    simp

/-- C9: witness instantiating the row-level conjuncts at concrete rows
(a two-column row at row number 2, a category-1 word without prefix, and a
batch with no successes). -/
theorem batch_add_words_rows_witness :
    addWordRow ((Dict.mk [] [] [] []), 0, []) 2 ["bad", "row"] =
      ((Dict.mk [] [] [] []), 0,
        ["Row 2: Invalid format. Expected 3 columns (english,xelthor,category)"]) ∧
    addWordRow ((Dict.mk [] [] [] []), 0, []) 1 ["dance", "phi", "1"] =
      ((Dict.mk [("dance", "zz\x27phi")] [] [] []), 1, []) ∧
    ((batchAddWords (Dict.mk [] [] [] []) [["bad", "row"]]).2.2.2 = true ↔
      0 < (batchAddWords (Dict.mk [] [] [] []) [["bad", "row"]]).1) := by
  have h1 := batch_add_words_rows.1 ((Dict.mk [] [] [] []), 0, []) 2 ["bad", "row"]
    (by decide)
  have h2 := batch_add_words_rows.2.2.2.2.1 ((Dict.mk [] [] [] []), 0, []) 1
    "dance" "phi" "1" (by decide) (by decide) (by decide) (by decide)
  have h3 := batch_add_words_rows.2.2.2.2.2.1 (Dict.mk [] [] [] []) [["bad", "row"]]
  refine ⟨by rw [h1]; decide, by rw [h2]; decide, h3⟩

end Xelthor
